import Mathlib

set_option autoImplicit false

/-!
Shallow embedding of the repository's three Python source files:
`cryptogramKeys.py`, `validate_games.py` and `validate_prompts.py`.

Python ints are modelled as `Nat`/`Int` (no fixed-width arithmetic occurs in
the sources).  Randomness (`random.shuffle`) is modelled as an explicit stream
`rand : Nat → List Char` of shuffle outcomes, one per rejection-sampling
trial; in Python every outcome of `random.shuffle(shuffled)` is a permutation
of the shuffled list, which theorems take as a hypothesis on the stream.
Unbounded `while` loops are given a fuel parameter; running out of fuel is the
`none` result, distinct from every real outcome of the Python code.
Python exceptions are modelled with `Except`.
-/

namespace CryptogramKeys

/-- `letters = [chr(i) for i in range(65, 91)]` (cryptogramKeys.py line 5). -/
def letters : List Char := (List.range 26).map (fun i => Char.ofNat (65 + i))

/-- The fixed-point scan of `generate_cryptogram_key` (lines 13-17): the
`valid` flag ends up true iff `shuffled[i] != letters[i]` for every
`i in range(26)`. -/
def keyValidCheck (shuffled : List Char) : Bool :=
  (List.range 26).all (fun i => !(shuffled.getD i ' ' == letters.getD i ' '))

/-- `generate_cryptogram_key()` (cryptogramKeys.py lines 3-20).  `rand k` is
the outcome of the `k`-th `random.shuffle` call; the returned `Nat` is the
next unused stream position, threading the process-wide random state through
consecutive calls.  `fuel` bounds the number of trials of the `while True`
loop. -/
def generate_cryptogram_key (rand : Nat → List Char) (k : Nat) (fuel : Nat) :
    Option (String × Nat) :=
  match fuel with
  | 0 => none
  | f + 1 =>
    let shuffled := rand k
    if keyValidCheck shuffled then some (String.mk shuffled, k + 1)
    else generate_cryptogram_key rand (k + 1) f

/-- The module-level driver `for i in range(20): print(generate_cryptogram_key())`
(cryptogramKeys.py lines 22-25), collecting the printed lines in order. -/
def driverKeys (rand : Nat → List Char) (fuel : Nat) (k : Nat) (n : Nat) :
    Option (List String) :=
  match n with
  | 0 => some []
  | m + 1 =>
    match generate_cryptogram_key rand k fuel with
    | none => none
    | some (s, kNext) => (driverKeys rand fuel kNext m).map (fun rest => s :: rest)

/-- The whole module run: 20 driver iterations starting at stream position 0. -/
def moduleDriver (rand : Nat → List Char) (fuel : Nat) : Option (List String) :=
  driverKeys rand fuel 0 20

/-- A concrete derangement used in witnesses: the alphabet rotated left by one. -/
def rotLetters : List Char :=
  ['B','C','D','E','F','G','H','I','J','K','L','M',
   'N','O','P','Q','R','S','T','U','V','W','X','Y','Z','A']

end CryptogramKeys

/-! ## A model of the Python values the validators manipulate -/

/-- JSON values as produced by `json.load`.  Numbers are modelled as integers:
the repository's data and the validators use no fractional numerics. -/
inductive JValue where
  | str (s : String)
  | num (n : Int)
  | bool (b : Bool)
  | null
  | arr (elems : List JValue)
  | obj (fields : List (String × JValue))

/-- The Python exceptions the two validator scripts can raise. -/
inductive Exc where
  | valueError
  | typeError
  | keyError (key : String)
  | indexError
  | attributeError
deriving DecidableEq

/-- The three outcomes of `open("prompts.json")` followed by `json.load`:
the file is absent (`FileNotFoundError`), unparsable (`JSONDecodeError`),
or parses to a value. -/
inductive FileRead where
  | missing
  | invalid
  | parsed (data : JValue)

/-- Python `str()` of a loaded JSON value, used in f-string interpolation.
Containers are abbreviated: no theorem depends on message text for
containers, only the string/number/bool/null cases occur in reachable
messages. -/
def jStr : JValue → String
  | .str s => s
  | .num n => toString n
  | .bool b => if b then "True" else "False"
  | .null => "None"
  | .arr _ => "[...]"
  | .obj _ => "\x7b...\x7d"

/-- The string payload of a `JValue` known to be a string. -/
def jStrOf : JValue → String
  | .str s => s
  | _ => ""

/-- Python dict lookup where later duplicate keys shadow earlier ones,
as `json.load` builds dicts. -/
def jLookupLast (key : String) : List (String × JValue) → Option JValue
  | [] => none
  | kv :: rest =>
    match jLookupLast key rest with
    | some v => some v
    | none => if kv.1 == key then some kv.2 else none

/-- Naive substring search, modelling Python's `needle in haystack` on
strings and the fixed-literal `re.search` uses of the validators. -/
def containsSub (pat : List Char) : List Char → Bool
  | [] => pat.isEmpty
  | c :: cs => List.isPrefixOf pat (c :: cs) || containsSub pat cs

/-- Python `len(v)`: defined for strings, lists and dicts, a `TypeError`
otherwise. -/
def pyLen : JValue → Except Exc Nat
  | .str s => .ok s.length
  | .arr l => .ok l.length
  | .obj kvs => .ok kvs.length
  | _ => .error .typeError

/-- Python `v[i]` for a non-negative integer index `i`: list/string indexing
(`IndexError` when out of range), `KeyError` on dicts, `TypeError`
otherwise. -/
def pyIdx (v : JValue) (i : Nat) : Except Exc JValue :=
  match v with
  | .arr l => if h : i < l.length then .ok (l.get ⟨i, h⟩) else .error .indexError
  | .str s =>
    if h : i < s.data.length then .ok (.str (String.mk [s.data.get ⟨i, h⟩]))
    else .error .indexError
  | .obj _ => .error (.keyError (toString i))
  | _ => .error .typeError

/-- Python `v[key]` for a string key. -/
def pySub (v : JValue) (key : String) : Except Exc JValue :=
  match v with
  | .obj kvs =>
    match jLookupLast key kvs with
    | some w => .ok w
    | none => .error (.keyError key)
  | _ => .error .typeError

/-- Python `key in v` for a string `key`: dict key membership, list element
membership, substring test on strings, `TypeError` otherwise. -/
def pyContains (v : JValue) (key : String) : Except Exc Bool :=
  match v with
  | .obj kvs => .ok (kvs.any (fun kv => kv.1 == key))
  | .arr l => .ok (l.any (fun e => match e with | .str s => s == key | _ => false))
  | .str s => .ok (containsSub key.data s.data)
  | _ => .error .typeError

/-- Python `v == lit` for a string literal `lit` (never raises). -/
def jEqStr (v : JValue) (lit : String) : Bool :=
  match v with
  | .str s => s == lit
  | _ => false

/-- A character is cased in the ASCII fragment the repository's data uses. -/
def isCasedCh (c : Char) : Bool :=
  ('A' ≤ c && c ≤ 'Z') || ('a' ≤ c && c ≤ 'z')

def isUpperCh (c : Char) : Bool := 'A' ≤ c && c ≤ 'Z'

/-- Python `s.isupper()`: at least one cased character and every cased
character uppercase. -/
def pyIsUpperStr (s : String) : Bool :=
  s.data.any isCasedCh && s.data.all (fun c => !isCasedCh c || isUpperCh c)

/-- Python attribute call `v.isupper()`: `AttributeError` unless `v` is a
string. -/
def pyIsupperMethod : JValue → Except Exc Bool
  | .str s => .ok (pyIsUpperStr s)
  | _ => .error .attributeError

/-- `re`-module calls (`re.match`, `re.search`, `re.findall`) raise
`TypeError` when handed a non-string. -/
def asStr : JValue → Except Exc String
  | .str s => .ok s
  | _ => .error .typeError

/-! ## A model of the `datetime` fragment the validators use

Python `datetime` values built by `strptime(s, "%Y-%m-%d")` are dates at
midnight; the scripts compare them, add `timedelta(days=1)` and render them
with `strftime("%Y-%m-%d")`.  A date is a `(year, month, day)` triple and
comparison is lexicographic, exactly as in CPython. -/

structure Date where
  year : Nat
  month : Nat
  day : Nat
deriving DecidableEq

def isLeapYear (y : Nat) : Bool :=
  y % 4 == 0 && (y % 100 != 0 || y % 400 == 0)

def daysInMonth (y m : Nat) : Nat :=
  if m == 2 then (if isLeapYear y then 29 else 28)
  else if m == 4 || m == 6 || m == 9 || m == 11 then 30
  else 31

/-- The dates representable as Python `datetime` components (`MINYEAR = 1`;
the `MAXYEAR` bound is not modelled — see `nextDay`). -/
def validDate (d : Date) : Prop :=
  1 ≤ d.year ∧ 1 ≤ d.month ∧ d.month ≤ 12 ∧ 1 ≤ d.day ∧
    d.day ≤ daysInMonth d.year d.month

instance (d : Date) : Decidable (validDate d) := by
  unfold validDate; infer_instance

/-- `current_date + timedelta(days=1)` on the calendar grid.  CPython raises
`OverflowError` past year 9999; the model extends past it instead, which no
theorem's inputs reach. -/
def nextDay (d : Date) : Date :=
  if d.day < daysInMonth d.year d.month then ⟨d.year, d.month, d.day + 1⟩
  else if d.month < 12 then ⟨d.year, d.month + 1, 1⟩
  else ⟨d.year + 1, 1, 1⟩

/-- CPython datetime `<=`: lexicographic on `(year, month, day)`. -/
def dle (a b : Date) : Bool :=
  a.year < b.year ||
    (a.year == b.year &&
      (a.month < b.month || (a.month == b.month && a.day ≤ b.day)))

/-- CPython datetime `<`: lexicographic on `(year, month, day)`. -/
def dlt (a b : Date) : Bool :=
  a.year < b.year ||
    (a.year == b.year &&
      (a.month < b.month || (a.month == b.month && a.day < b.day)))

/-- A measure dominating the number of loop iterations between two dates:
it increases by at least one per calendar day. -/
def idxD (d : Date) : Nat :=
  d.year * 372 + min d.month 12 * 31 + min d.day 31

def isDigitCh (c : Char) : Bool := 48 ≤ c.toNat && c.toNat ≤ 57

def digVal (c : Char) : Nat := c.toNat - 48

/-- `%Y` of `_strptime`: exactly four digits. -/
def parseYear4 : List Char → Option (Nat × List Char)
  | a :: b :: c :: d :: rest =>
    if isDigitCh a && isDigitCh b && isDigitCh c && isDigitCh d then
      some (digVal a * 1000 + digVal b * 100 + digVal c * 10 + digVal d, rest)
    else none
  | _ => none

/-- `%m` of `_strptime`: the regex `1[0-2]|0[1-9]|[1-9]`. -/
def parseMonth2 : List Char → Option (Nat × List Char)
  | a :: b :: rest =>
    if a == '1' && (b == '0' || b == '1' || b == '2') then
      some (10 + digVal b, rest)
    else if a == '0' && isDigitCh b && 1 ≤ digVal b then some (digVal b, rest)
    else if isDigitCh a && 1 ≤ digVal a then some (digVal a, b :: rest)
    else none
  | [a] => if isDigitCh a && 1 ≤ digVal a then some (digVal a, []) else none
  | [] => none

/-- `%d` of `_strptime`: the regex `3[01]|[12]\d|0[1-9]|[1-9]`. -/
def parseDay2 : List Char → Option (Nat × List Char)
  | a :: b :: rest =>
    if a == '3' && (b == '0' || b == '1') then some (30 + digVal b, rest)
    else if (a == '1' || a == '2') && isDigitCh b then
      some (digVal a * 10 + digVal b, rest)
    else if a == '0' && isDigitCh b && 1 ≤ digVal b then some (digVal b, rest)
    else if isDigitCh a && 1 ≤ digVal a then some (digVal a, b :: rest)
    else none
  | [a] => if isDigitCh a && 1 ≤ digVal a then some (digVal a, []) else none
  | [] => none

/-- `datetime.strptime(s, "%Y-%m-%d")`: the `_strptime` regex for the format,
entire string consumed, and the `datetime` constructor's day-of-month and
`MINYEAR` validation.  `none` is `ValueError`. -/
def parseDate (s : String) : Option Date :=
  match parseYear4 s.data with
  | none => none
  | some (y, r1) =>
    match r1 with
    | '-' :: r2 =>
      match parseMonth2 r2 with
      | none => none
      | some (m, r3) =>
        match r3 with
        | '-' :: r4 =>
          match parseDay2 r4 with
          | none => none
          | some (d, r5) =>
            if r5 == [] && 1 ≤ y && d ≤ daysInMonth y m then
              some ⟨y, m, d⟩
            else none
        | _ => none
    | _ => none

/-- Zero-padding to two digits, as `strftime`'s `%m`/`%d` print. -/
def pad2 (n : Nat) : String :=
  (if n < 10 then "0" else "") ++ toString n

/-- `d.strftime("%Y-%m-%d")`.  glibc's `%Y` prints the year unpadded, which
is what CPython emits on the platform the scripts target; every year these
scripts handle has four digits, where this coincides with zero-padding. -/
def dateToStr (d : Date) : String :=
  toString d.year ++ "-" ++ pad2 d.month ++ "-" ++ pad2 d.day

/-! ## validate_games.py -/

namespace ValidateGames

/-- The `alphabet` constant of `is_valid_scryptogram_cipher`
(validate_games.py line 71). -/
def alphabet : String := "ABCDEFGHIJKLMNOPQRSTUVWXYZ"

/-- `re.match(r'^[a-zA-Z]+$', s)` as a boolean: one or more ASCII letters
spanning the whole string, where `$` also matches just before one final
newline (CPython `$` semantics). -/
def reAllLetters (s : String) : Bool :=
  (!s.data.isEmpty && s.data.all isCasedCh) ||
    (match s.data.getLast? with
     | some c =>
       c == '\n' && !s.data.dropLast.isEmpty && s.data.dropLast.all isCasedCh
     | none => false)

/-- `is_valid_lingo_solution(solution, all_solutions)` (lines 7-21).
`all_solutions` holds the string payloads of previously accepted solutions
(only strings pass the regex stage, so only strings are ever added). -/
def is_valid_lingo_solution (solution : JValue) (all_solutions : List String) :
    Except Exc (Bool × Option String) :=
  match pyLen solution with
  | .error e => .error e
  | .ok n =>
    if n != 5 then
      .ok (false, some ("Lingo solution '" ++ jStr solution ++
        "' is not exactly 5 characters."))
    else
      match asStr solution with
      | .error e => .error e
      | .ok s =>
        if !reAllLetters s then
          .ok (false, some ("Lingo solution '" ++ s ++
            "' contains invalid characters (only letters allowed)."))
        else if all_solutions.contains s then
          .ok (false, some ("Lingo solution '" ++ s ++ "' is not unique."))
        else .ok (true, none)

/-- `\w` of `re.findall(r'\w+', target)` restricted to ASCII, as the data
uses. -/
def isWordCh (c : Char) : Bool := isCasedCh c || isDigitCh c || c == '_'

/-- One step of splitting a string into maximal `\w+` runs, right to left. -/
def wordSplitStep (c : Char) :
    List Char × List (List Char) → List Char × List (List Char)
  | (cur, runs) =>
    if isWordCh c then (c :: cur, runs)
    else ([], if cur.isEmpty then runs else cur :: runs)

/-- `re.findall(r'\w+', s)`: the maximal word-character runs, in order. -/
def wordRuns (s : List Char) : List (List Char) :=
  match s.foldr wordSplitStep ([], []) with
  | (cur, runs) => if cur.isEmpty then runs else cur :: runs

/-- `is_valid_scryptogram_target(target, all_targets)` (lines 24-44). -/
def is_valid_scryptogram_target (target : JValue) (all_targets : List String) :
    Except Exc (Bool × Option String) :=
  match pyLen target with
  | .error e => .error e
  | .ok n =>
    if n ≤ 25 then
      .ok (false, some ("Scryptogram target is too short: " ++ toString n ++
        " characters (must be > 25)."))
    else
      match asStr target with
      | .error e => .error e
      | .ok s =>
        if (wordRuns s.data).any (fun w => 12 < w.length) then
          .ok (false, some "Scryptogram target contains a word longer than 12 characters.")
        else if all_targets.contains s then
          .ok (false, some "Scryptogram target is not unique.")
        else if containsSub ['\\', '\"', '\\', '\"'] s.data then
          .ok (false, some "Scryptogram target contains consecutive escaped quotes.")
        else .ok (true, none)

/-- Python `':' in hint` after `len(hint)` succeeded: `hint` is a string,
list or dict there. -/
def containsColon : JValue → Bool
  | .str s => containsSub [':'] s.data
  | .arr l => l.any (fun e => match e with | .str s => s == ":" | _ => false)
  | .obj kvs => kvs.any (fun kv => kv.1 == ":")
  | _ => false

/-- `is_valid_scryptogram_hint(hint)` (lines 47-57). -/
def is_valid_scryptogram_hint (hint : JValue) : Except Exc (Bool × Option String) :=
  match pyLen hint with
  | .error e => .error e
  | .ok n =>
    if n ≤ 6 then
      .ok (false, some ("Scryptogram hint is too short: " ++ toString n ++
        " characters (must be > 6)."))
    else if !containsColon hint then
      .ok (false, some "Scryptogram hint does not contain a ':' character.")
    else .ok (true, none)

/-- The `for i in range(26)` scan of `is_valid_scryptogram_cipher`
(lines 72-74): the first position at which the cipher letter sits in its
original alphabet position. -/
def cipherFixedPt (s : String) : Option Nat :=
  (List.range 26).find? (fun i => s.data.getD i ' ' == alphabet.data.getD i ' ')

/-- `is_valid_scryptogram_cipher(cipher)` (lines 60-76). -/
def is_valid_scryptogram_cipher (cipher : JValue) :
    Except Exc (Bool × Option String) :=
  match pyLen cipher with
  | .error e => .error e
  | .ok n =>
    if n != 26 then
      .ok (false, some ("Scryptogram cipher is not exactly 26 characters: " ++
        toString n ++ "."))
    else
      match pyIsupperMethod cipher with
      | .error e => .error e
      | .ok up =>
        if !up then
          .ok (false, some ("Scryptogram cipher is not all uppercase: '" ++
            jStrOf cipher ++ "'."))
        else
          match cipherFixedPt (jStrOf cipher) with
          | some i =>
            .ok (false, some ("Scryptogram cipher has a letter in its original position " ++
              toString (i + 1) ++ "."))
          | none => .ok (true, none)

/-- Lines 128-142: the lingo section of one loop iteration.  Returns the
section's contribution to `valid` and the updated `all_lingo_solutions`. -/
def lingoSection (game : JValue) (sols : List String) :
    Except Exc (Bool × List String) :=
  match pyIdx game 0 with
  | .error e => .error e
  | .ok g0 =>
    match pySub g0 "type" with
    | .error e => .error e
    | .ok ty =>
      if !jEqStr ty "lingo" then .ok (false, sols)
      else
        match pyContains g0 "config" with
        | .error e => .error e
        | .ok hasCfg =>
          match
            (if hasCfg then
              match pySub g0 "config" with
              | .error e => .error e
              | .ok cfg =>
                match pyContains cfg "solution" with
                | .error e => .error e
                | .ok hasSol => .ok (!hasSol)
            else .ok true : Except Exc Bool) with
          | .error e => .error e
          | .ok missingCfg =>
            if missingCfg then .ok (false, sols)
            else
              match pySub g0 "config" with
              | .error e => .error e
              | .ok cfg =>
                match pySub cfg "solution" with
                | .error e => .error e
                | .ok sol =>
                  match is_valid_lingo_solution sol sols with
                  | .error e => .error e
                  | .ok (true, _) => .ok (true, jStrOf sol :: sols)
                  | .ok (false, _) => .ok (false, sols)

/-- Lines 144-172: the scryptogram section of one loop iteration.  Returns
the section's contribution to `valid` and the updated
`all_scryptogram_targets`. -/
def scryptoSection (game : JValue) (tgts : List String) :
    Except Exc (Bool × List String) :=
  match pyIdx game 1 with
  | .error e => .error e
  | .ok g1 =>
    match pySub g1 "type" with
    | .error e => .error e
    | .ok ty =>
      if !jEqStr ty "scryptogram" then .ok (false, tgts)
      else
        match pyContains g1 "config" with
        | .error e => .error e
        | .ok hasCfg =>
          match
            (if hasCfg then
              match pySub g1 "config" with
              | .error e => .error e
              | .ok cfg =>
                match pyContains cfg "target" with
                | .error e => .error e
                | .ok h1 =>
                  match pyContains cfg "hint" with
                  | .error e => .error e
                  | .ok h2 =>
                    match pyContains cfg "cipher" with
                    | .error e => .error e
                    | .ok h3 => .ok (!h1 || !h2 || !h3)
            else .ok true : Except Exc Bool) with
          | .error e => .error e
          | .ok missingCfg =>
            if missingCfg then .ok (false, tgts)
            else
              match pySub g1 "config" with
              | .error e => .error e
              | .ok cfg =>
                match pySub cfg "target" with
                | .error e => .error e
                | .ok tgt =>
                  match is_valid_scryptogram_target tgt tgts with
                  | .error e => .error e
                  | .ok (tok, _) =>
                    let tgts' := if tok then jStrOf tgt :: tgts else tgts
                    match pySub cfg "hint" with
                    | .error e => .error e
                    | .ok hint =>
                      match is_valid_scryptogram_hint hint with
                      | .error e => .error e
                      | .ok (hok, _) =>
                        match pySub cfg "cipher" with
                        | .error e => .error e
                        | .ok ciph =>
                          match is_valid_scryptogram_cipher ciph with
                          | .error e => .error e
                          | .ok (cok, _) => .ok ((tok && hok) && cok, tgts')

/-- The `while current_date <= end_date` loop of `validate_json`
(lines 108-174).  `data` is the loaded JSON document; `data['games']` is
re-evaluated each iteration as in the source. -/
def validateGamesLoop (data : JValue) (cur endD : Date) (sols tgts : List String)
    (valid : Bool) (fuel : Nat) : Option (Except Exc Bool) :=
  match fuel with
  | 0 => if dle cur endD then none else some (.ok valid)
  | f + 1 =>
    if dle cur endD then
      match pySub data "games" with
      | .error e => some (.error e)
      | .ok gval =>
        match pyContains gval (dateToStr cur) with
        | .error e => some (.error e)
        | .ok false => validateGamesLoop data (nextDay cur) endD sols tgts false f
        | .ok true =>
          match pySub gval (dateToStr cur) with
          | .error e => some (.error e)
          | .ok game =>
            match pyLen game with
            | .error e => some (.error e)
            | .ok n =>
              if n < 2 then validateGamesLoop data (nextDay cur) endD sols tgts false f
              else
                match lingoSection game sols with
                | .error e => some (.error e)
                | .ok (ok1, sols') =>
                  match scryptoSection game tgts with
                  | .error e => some (.error e)
                  | .ok (ok2, tgts') =>
                    validateGamesLoop data (nextDay cur) endD sols' tgts'
                      ((valid && ok1) && ok2) f
    else some (.ok valid)

/-- The hard-coded `start_date = datetime.strptime("2025-03-05", "%Y-%m-%d")`
of validate_games.py line 84 (`parseDate "2025-03-05"` yields exactly this,
see `parseDate_gamesStart`). -/
def gamesStartDate : Date := ⟨2025, 3, 5⟩

/-- `validate_json(end_date_str)` of validate_games.py (lines 79-181).
`fs` stands for the `prompts.json` file in the working directory. -/
def validate_json (fs : FileRead) (end_date_str : String) (fuel : Nat) :
    Option (Except Exc Bool) :=
  match parseDate end_date_str with
  | none => some (.error .valueError)
  | some endD =>
    match fs with
    | .missing => some (.ok false)
    | .invalid => some (.ok false)
    | .parsed data =>
      match pyContains data "games" with
      | .error e => some (.error e)
      | .ok false => some (.ok false)
      | .ok true => validateGamesLoop data gamesStartDate endD [] [] true fuel

end ValidateGames

/-- The outcome of a script's `main()`: `usage` models the `SystemExit` that
`argparse` raises when the two required positionals `file` and `endDate` are
not both supplied; `ran r` records the `validate_json` call's outcome (its
return value is discarded by `main`). -/
inductive MainResult where
  | usage
  | ran (r : Option (Except Exc Bool))

/-- `argparse` with the two positional arguments `file` and `endDate`
(lines 184-189 of validate_games.py, lines 170-175 of validate_prompts.py):
any other number of (non-flag) arguments aborts with a usage error. -/
def parse_args (argv : List String) : Option (String × String) :=
  match argv with
  | [f, e] => some (f, e)
  | _ => none

namespace ValidateGames

/-- `main()` of validate_games.py (lines 184-191): parses `file` and
`endDate`, then calls `validate_json(args.endDate)` — the `file` argument is
never used, the hard-coded `prompts.json` (`fs`) is read instead. -/
def main (fs : FileRead) (argv : List String) (fuel : Nat) : MainResult :=
  match parse_args argv with
  | none => .usage
  | some (_, e) => .ran (validate_json fs e fuel)

end ValidateGames

/-! ## validate_prompts.py -/

namespace ValidatePrompts

/-- The date part `\d{4}-\d{2}-\d{2}` of the forbidden prompt pattern. -/
def forbiddenDateTail : List Char → Bool
  | [a, b, c, d, h1, e, f, h2, g, h] =>
    isDigitCh a && isDigitCh b && isDigitCh c && isDigitCh d &&
      h1 == '-' && isDigitCh e && isDigitCh f && h2 == '-' &&
      isDigitCh g && isDigitCh h
  | _ => false

/-- The body of `re.match(r"^Prompt for \d{4}-\d{2}-\d{2}$", s)` without the
trailing-newline allowance of `$`. -/
def forbiddenCore : List Char → Bool
  | 'P' :: 'r' :: 'o' :: 'm' :: 'p' :: 't' :: ' ' :: 'f' :: 'o' :: 'r' :: ' ' :: rest =>
    forbiddenDateTail rest
  | _ => false

/-- `re.match(r"^Prompt for \d{4}-\d{2}-\d{2}$", s)` as a boolean;
CPython's `$` also matches just before one final newline. -/
def matchesForbiddenPrompt (s : String) : Bool :=
  forbiddenCore s.data ||
    (match s.data.getLast? with
     | some c => c == '\n' && forbiddenCore s.data.dropLast
     | none => false)

/-- `check_prompt_format(prompt_obj)` (validate_prompts.py lines 6-59). -/
def check_prompt_format (prompt_obj : JValue) : Except Exc Bool :=
  match pyContains prompt_obj "Prompt" with
  | .error e => .error e
  | .ok false => .ok true
  | .ok true =>
    match pySub prompt_obj "Prompt" with
    | .error e => .error e
    | .ok pt =>
      match pySub prompt_obj "Date" with
      | .error e => .error e
      | .ok _ =>
        match asStr pt with
        | .error e => .error e
        | .ok s =>
          if matchesForbiddenPrompt s then .ok false
          else
            match pyContains prompt_obj "Lesson" with
            | .error e => .error e
            | .ok false => .ok false
            | .ok true =>
              match pyContains prompt_obj "WeekDay" with
              | .error e => .error e
              | .ok false => .ok false
              | .ok true =>
                match pyContains prompt_obj "WeekNum" with
                | .error e => .error e
                | .ok false => .ok false
                | .ok true =>
                  match pyContains prompt_obj "WeekLabel" with
                  | .error e => .error e
                  | .ok false => .ok false
                  | .ok true =>
                    match pyContains prompt_obj "Month" with
                    | .error e => .error e
                    | .ok false => .ok false
                    | .ok true =>
                      match pyContains prompt_obj "Link" with
                      | .error e => .error e
                      | .ok false => .ok false
                      | .ok true =>
                        match pyContains prompt_obj "PromptLink" with
                        | .error e => .error e
                        | .ok false => .ok false
                        | .ok true => .ok true

/-- The eight literal strings whose presence as a substring is what
`re.search` finds for the two YouTube patterns
`https?://(?:www\.)?youtube\.com/` and `https?://(?:www\.)?youtu\.be/`. -/
def youtubeNeedles : List String :=
  ["http://youtube.com/", "https://youtube.com/",
   "http://www.youtube.com/", "https://www.youtube.com/",
   "http://youtu.be/", "https://youtu.be/",
   "http://www.youtu.be/", "https://www.youtu.be/"]

def hasYoutubeLink (s : String) : Bool :=
  youtubeNeedles.any (fun p => containsSub p.data s.data)

/-- `check_youtube_link(prompt_obj)` (lines 61-89). -/
def check_youtube_link (prompt_obj : JValue) : Except Exc Bool :=
  match pyContains prompt_obj "Date" with
  | .error e => .error e
  | .ok false => .ok true
  | .ok true =>
    match pySub prompt_obj "Date" with
    | .error e => .error e
    | .ok _ =>
      match pyContains prompt_obj "PromptLink" with
      | .error e => .error e
      | .ok false => .ok false
      | .ok true =>
        match pySub prompt_obj "PromptLink" with
        | .error e => .error e
        | .ok pl =>
          match asStr pl with
          | .error e => .error e
          | .ok s => .ok (hasYoutubeLink s)

/-- `re.search(r'\"+\"+', s)`: in the pattern `\"` is just an escaped double
quote, so it fires exactly on two consecutive `"` characters. -/
def hasConsecQuotes : List Char → Bool
  | '\"' :: '\"' :: _ => true
  | _ :: rest => hasConsecQuotes rest
  | [] => false

/-- `check_escaped_quotes(prompt_obj)` (lines 91-111). -/
def check_escaped_quotes (prompt_obj : JValue) : Except Exc Bool :=
  match pyContains prompt_obj "Prompt" with
  | .error e => .error e
  | .ok hasP =>
    match pyContains prompt_obj "Date" with
    | .error e => .error e
    | .ok hasD =>
      if !hasP || !hasD then .ok true
      else
        match pySub prompt_obj "Prompt" with
        | .error e => .error e
        | .ok pt =>
          match pySub prompt_obj "Date" with
          | .error e => .error e
          | .ok _ =>
            match asStr pt with
            | .error e => .error e
            | .ok s => .ok (!hasConsecQuotes s.data)

/-- The hard-coded `start_date = datetime.strptime("2025-03-03", "%Y-%m-%d")`
of validate_prompts.py line 118. -/
def promptsStartDate : Date := ⟨2025, 3, 3⟩

/-- The `for prompt in data['prompts']` loop (lines 138-149): collects
`json_dates` (normalized date strings) and runs the three per-prompt checks
for prompts dated within `[start_date, end_date]`, discarding their boolean
results; a `ValueError` from `strptime` is caught and skips the prompt, any
other exception propagates. -/
def promptsScan (startD endD : Date) :
    List JValue → List String → Except Exc (List String)
  | [], jd => .ok jd
  | p :: rest, jd =>
    match pyContains p "Date" with
    | .error e => .error e
    | .ok false => promptsScan startD endD rest jd
    | .ok true =>
      match pySub p "Date" with
      | .error e => .error e
      | .ok dv =>
        match dv with
        | .str s =>
          match parseDate s with
          | none => promptsScan startD endD rest jd
          | some pd =>
            let jd' := dateToStr pd :: jd
            if dle pd endD && dle startD pd then
              match check_prompt_format p with
              | .error e => .error e
              | .ok _ =>
                match check_youtube_link p with
                | .error e => .error e
                | .ok _ =>
                  match check_escaped_quotes p with
                  | .error e => .error e
                  | .ok _ => promptsScan startD endD rest jd'
            else promptsScan startD endD rest jd'
        | _ => .error .typeError

/-- The `while current_date <= end_date` missing-dates loop (lines 151-157):
the list of required date strings absent from `json_dates`, in date order. -/
def missingDates (jd : List String) (cur endD : Date) (fuel : Nat) :
    Option (List String) :=
  match fuel with
  | 0 => if dle cur endD then none else some []
  | f + 1 =>
    if dle cur endD then
      (missingDates jd (nextDay cur) endD f).map
        (fun rest =>
          (if jd.contains (dateToStr cur) then [] else [dateToStr cur]) ++ rest)
    else some []

/-- `validate_json(end_date_str)` of validate_prompts.py (lines 113-166).
`fs` stands for the `prompts.json` file in the working directory. -/
def validate_json (fs : FileRead) (end_date_str : String) (fuel : Nat) :
    Option (Except Exc Bool) :=
  match parseDate end_date_str with
  | none => some (.error .valueError)
  | some endD =>
    match fs with
    | .missing => some (.ok false)
    | .invalid => some (.ok false)
    | .parsed data =>
      match pyContains data "prompts" with
      | .error e => some (.error e)
      | .ok false => some (.ok false)
      | .ok true =>
        match pySub data "prompts" with
        | .error e => some (.error e)
        | .ok pv =>
          match pv with
          | .arr prompts =>
            match promptsScan promptsStartDate endD prompts [] with
            | .error e => some (.error e)
            | .ok jd =>
              match missingDates jd promptsStartDate endD fuel with
              | none => none
              | some [] => some (.ok true)
              | some (_ :: _) => some (.ok false)
          | _ => some (.ok false)

/-- `main()` of validate_prompts.py (lines 170-177): parses `file` and
`endDate`, then calls `validate_json(args.endDate)` — the `file` argument is
never used. -/
def main (fs : FileRead) (argv : List String) (fuel : Nat) : MainResult :=
  match parse_args argv with
  | none => .usage
  | some (_, e) => .ran (validate_json fs e fuel)

end ValidatePrompts

/-! ## Concrete documents used in counterexamples and witnesses -/

/-- A games document whose single entry's first element lacks a `type` key. -/
def gdocNoType : JValue :=
  .obj [("games", .obj [("2025-03-05", .arr [.obj [("x", .num 1)], .obj []])])]

/-- A games document whose single entry is a list of numbers (non-object game
elements). -/
def gdocNums : JValue :=
  .obj [("games", .obj [("2025-03-05", .arr [.num 1, .num 2])])]

/-- A prompt entry dated 2025-03-03 whose `PromptLink` is not a YouTube
link. -/
def pBad : JValue :=
  .obj [("Date", .str "2025-03-03"), ("PromptLink", .str "http://example.com/")]

/-- A prompts document containing only `pBad`: every date in the range ending
2025-03-03 is present, but the YouTube-link check fails. -/
def pdocBad : JValue := .obj [("prompts", .arr [pBad])]

/-- AND-mask on a loop outcome: how an incoming `valid` flag combines with
the rest of a validation run (errors and fuel exhaustion absorb it). -/
def maskAnd (a : Bool) : Option (Except Exc Bool) → Option (Except Exc Bool)
  | none => none
  | some (.error e) => some (.error e)
  | some (.ok b) => some (.ok (a && b))

/-! ## Lemmas about the date model -/

theorem dle_iff (a b : Date) :
    dle a b = true ↔
      (a.year < b.year ∨ (a.year = b.year ∧
        (a.month < b.month ∨ (a.month = b.month ∧ a.day ≤ b.day)))) := by
  simp [dle, Bool.or_eq_true, Bool.and_eq_true, decide_eq_true_eq, beq_iff_eq]

theorem dlt_iff (a b : Date) :
    dlt a b = true ↔
      (a.year < b.year ∨ (a.year = b.year ∧
        (a.month < b.month ∨ (a.month = b.month ∧ a.day < b.day)))) := by
  simp [dlt, Bool.or_eq_true, Bool.and_eq_true, decide_eq_true_eq, beq_iff_eq]

theorem dle_refl (a : Date) : dle a a = true := by
  rw [dle_iff]; omega

theorem dle_trans {a b c : Date} (h1 : dle a b = true) (h2 : dle b c = true) :
    dle a c = true := by
  rw [dle_iff] at h1 h2 ⊢; omega

theorem dle_of_dlt {a b : Date} (h : dlt a b = true) : dle a b = true := by
  rw [dlt_iff] at h; rw [dle_iff]; omega

theorem dle_eq_or_lt {a b : Date} (h : dle a b = true) :
    a = b ∨ dlt a b = true := by
  obtain ⟨ay, am, ad⟩ := a
  obtain ⟨by', bm, bd⟩ := b
  rw [dle_iff] at h
  rw [dlt_iff]
  simp only [Date.mk.injEq]
  dsimp only at h ⊢
  omega

theorem daysInMonth_pos (y m : Nat) : 1 ≤ daysInMonth y m := by
  unfold daysInMonth; split_ifs <;> omega

theorem daysInMonth_le (y m : Nat) : daysInMonth y m ≤ 31 := by
  unfold daysInMonth; split_ifs <;> omega

theorem validDate_nextDay {d : Date} (hv : validDate d) : validDate (nextDay d) := by
  obtain ⟨h1, h2, h3, h4, h5⟩ := hv
  have hp12 := daysInMonth_pos d.year (d.month + 1)
  have hp1 := daysInMonth_pos (d.year + 1) 1
  unfold nextDay validDate
  split_ifs with ha hb <;> dsimp only <;> omega

theorem dlt_nextDay {d : Date} (hv : validDate d) : dlt d (nextDay d) = true := by
  obtain ⟨h1, h2, h3, h4, h5⟩ := hv
  unfold nextDay
  split_ifs with ha hb <;> rw [dlt_iff] <;> dsimp only <;> omega

theorem nextDay_le_of_lt {c d : Date} (hc : validDate c) (hd : validDate d)
    (h : dlt c d = true) : dle (nextDay c) d = true := by
  obtain ⟨c1, c2, c3, c4, c5⟩ := hc
  obtain ⟨d1, d2, d3, d4, d5⟩ := hd
  rw [dlt_iff] at h
  unfold nextDay
  split_ifs with ha hb <;> rw [dle_iff] <;> dsimp only <;>
    rcases h with hy | ⟨hy, hm | ⟨hm, hday⟩⟩
  · omega
  · omega
  · omega
  · omega
  · omega
  · rw [hy, hm] at ha c5
    omega
  · omega
  · omega
  · rw [hy, hm] at ha c5
    omega

theorem idxD_next {c : Date} (hv : validDate c) : idxD c + 1 ≤ idxD (nextDay c) := by
  obtain ⟨c1, c2, c3, c4, c5⟩ := hv
  have h31 := daysInMonth_le c.year c.month
  unfold nextDay idxD
  split_ifs with ha hb <;> dsimp only <;> omega

theorem idxD_mono {a b : Date} (ha : validDate a) (hb : validDate b)
    (h : dle a b = true) : idxD a ≤ idxD b := by
  obtain ⟨a1, a2, a3, a4, a5⟩ := ha
  obtain ⟨b1, b2, b3, b4, b5⟩ := hb
  have h31a := daysInMonth_le a.year a.month
  have h31b := daysInMonth_le b.year b.month
  rw [dle_iff] at h
  unfold idxD
  omega


theorem digVal_le_of_digit {c : Char} (h : isDigitCh c = true) : digVal c ≤ 9 := by
  simp only [isDigitCh, Bool.and_eq_true, decide_eq_true_eq] at h
  unfold digVal
  omega

theorem parseMonth2_bounds {l r : List Char} {m : Nat}
    (h : parseMonth2 l = some (m, r)) : 1 ≤ m ∧ m ≤ 12 := by
  match l with
  | [] => simp [parseMonth2] at h
  | [a] =>
    simp only [parseMonth2] at h
    split_ifs at h with h1
    simp only [Option.some.injEq, Prod.mk.injEq] at h
    obtain ⟨hm, hr⟩ := h
    simp only [Bool.and_eq_true, decide_eq_true_eq] at h1
    have := digVal_le_of_digit h1.1
    omega
  | a :: b :: rest =>
    simp only [parseMonth2] at h
    split_ifs at h with h1 h2 h3 <;>
      simp only [Option.some.injEq, Prod.mk.injEq] at h
    · simp only [Bool.and_eq_true, Bool.or_eq_true, beq_iff_eq] at h1
      obtain ⟨hm, hr⟩ := h
      obtain ⟨ha, hb⟩ := h1
      have hb' : digVal b ≤ 2 := by
        rcases hb with (hb | hb) | hb <;> subst hb <;> decide
      omega
    · simp only [Bool.and_eq_true, decide_eq_true_eq, beq_iff_eq] at h2
      obtain ⟨hm, hr⟩ := h
      have := digVal_le_of_digit h2.1.2
      omega
    · simp only [Bool.and_eq_true, decide_eq_true_eq] at h3
      obtain ⟨hm, hr⟩ := h
      have := digVal_le_of_digit h3.1
      omega

theorem parseDay2_bounds {l r : List Char} {n : Nat}
    (h : parseDay2 l = some (n, r)) : 1 ≤ n ∧ n ≤ 31 := by
  match l with
  | [] => simp [parseDay2] at h
  | [a] =>
    simp only [parseDay2] at h
    split_ifs at h with h1
    simp only [Option.some.injEq, Prod.mk.injEq] at h
    obtain ⟨hm, hr⟩ := h
    simp only [Bool.and_eq_true, decide_eq_true_eq] at h1
    have := digVal_le_of_digit h1.1
    omega
  | a :: b :: rest =>
    simp only [parseDay2] at h
    split_ifs at h with h1 h2 h3 h4 <;>
      simp only [Option.some.injEq, Prod.mk.injEq] at h
    · simp only [Bool.and_eq_true, Bool.or_eq_true, beq_iff_eq] at h1
      obtain ⟨hm, hr⟩ := h
      obtain ⟨ha, hb⟩ := h1
      have hb' : digVal b ≤ 1 := by
        rcases hb with hb | hb <;> subst hb <;> decide
      omega
    · simp only [Bool.and_eq_true, Bool.or_eq_true, beq_iff_eq,
        decide_eq_true_eq] at h2
      obtain ⟨hm, hr⟩ := h
      obtain ⟨ha, hb⟩ := h2
      have hbv := digVal_le_of_digit hb
      have ha' : 1 ≤ digVal a ∧ digVal a ≤ 2 := by
        rcases ha with ha | ha <;> subst ha <;> exact ⟨by decide, by decide⟩
      omega
    · simp only [Bool.and_eq_true, decide_eq_true_eq, beq_iff_eq] at h3
      obtain ⟨hm, hr⟩ := h
      have := digVal_le_of_digit h3.1.2
      omega
    · simp only [Bool.and_eq_true, decide_eq_true_eq] at h4
      obtain ⟨hm, hr⟩ := h
      have := digVal_le_of_digit h4.1
      omega

theorem parseDate_valid {s : String} {d : Date} (h : parseDate s = some d) :
    validDate d := by
  unfold parseDate at h
  split at h
  · exact absurd h (by simp)
  next y r1 hy =>
    split at h
    next r2 =>
      split at h
      · exact absurd h (by simp)
      next m r3 hm =>
        split at h
        next r4 =>
          split at h
          · exact absurd h (by simp)
          next dy r5 hd =>
            split at h
            next hcond =>
              simp only [Option.some.injEq] at h
              subst h
              simp only [Bool.and_eq_true, decide_eq_true_eq] at hcond
              have hmb := parseMonth2_bounds hm
              have hdb := parseDay2_bounds hd
              exact ⟨hcond.1.2, hmb.1, hmb.2, hdb.1, hcond.2⟩
            next => exact absurd h (by simp)
        next => exact absurd h (by simp)
    next => exact absurd h (by simp)

/-! ## Lemmas about the generator -/

namespace CryptogramKeys

theorem letters_eq_alphabet : letters = ValidateGames.alphabet.data := by decide

theorem letters_length : letters.length = 26 := by decide

theorem letters_nodup : letters.Nodup := by decide

theorem letters_char_facts :
    ∀ c ∈ letters, isCasedCh c = true ∧ isUpperCh c = true ∧ 'A' ≤ c ∧ c ≤ 'Z' := by
  decide

/-- Every successful return of the generator is a permutation of `letters`
that passed the fixed-point scan. -/
theorem gen_key_spec {rand : Nat → List Char} {k fuel k2 : Nat} {s : String}
    (hp : ∀ j, (rand j).Perm letters)
    (h : generate_cryptogram_key rand k fuel = some (s, k2)) :
    s.data.Perm letters ∧ keyValidCheck s.data = true := by
  induction fuel generalizing k with
  | zero => simp [generate_cryptogram_key] at h
  | succ f ih =>
    simp only [generate_cryptogram_key] at h
    by_cases hv : keyValidCheck (rand k) = true
    · rw [if_pos hv] at h
      simp only [Option.some.injEq, Prod.mk.injEq] at h
      obtain ⟨hs, hk⟩ := h
      subst hs
      exact ⟨hp k, hv⟩
    · rw [if_neg hv] at h
      exact ih h

theorem keyValidCheck_iff {l : List Char} :
    keyValidCheck l = true ↔
      ∀ i, i < 26 → l.getD i ' ' ≠ letters.getD i ' ' := by
  simp only [keyValidCheck, List.all_eq_true, List.mem_range, Bool.not_eq_eq_eq_not,
    Bool.not_true, beq_eq_false_iff_ne, ne_eq]

/-- Shape of each successful `driverKeys`: `n` lines, and a chain of stream
positions so that line `i` is the result of the `i`-th generator call. -/
theorem driverKeys_spec {rand : Nat → List Char} {fuel : Nat} :
    ∀ n k l, driverKeys rand fuel k n = some l →
      l.length = n ∧ ∃ g : Nat → Nat, g 0 = k ∧ ∀ i, i < n →
        generate_cryptogram_key rand (g i) fuel = some (l.getD i "", g (i + 1)) := by
  intro n
  induction n with
  | zero =>
    intro k l h
    simp only [driverKeys, Option.some.injEq] at h
    subst h
    exact ⟨rfl, fun _ => k, rfl, fun i hi => absurd hi (by omega)⟩
  | succ m ih =>
    intro k l h
    simp only [driverKeys] at h
    cases hg : generate_cryptogram_key rand k fuel with
    | none => rw [hg] at h; simp at h
    | some p =>
      obtain ⟨s, kn⟩ := p
      rw [hg] at h
      simp only [Option.map_eq_some'] at h
      obtain ⟨l', hl', hl⟩ := h
      subst hl
      obtain ⟨hlen, g', hg0, hgi⟩ := ih kn l' hl'
      refine ⟨by simp [hlen], fun i => match i with | 0 => k | i + 1 => g' i, rfl, ?_⟩
      intro i hi
      match i with
      | 0 =>
        simpa [hg0] using hg
      | i + 1 =>
        simpa using hgi i (by omega)

/-- Every line of a successful `driverKeys` run satisfies the generator's
invariant. -/
theorem driverKeys_mem {rand : Nat → List Char} {fuel : Nat}
    (hp : ∀ j, (rand j).Perm letters) :
    ∀ n k l, driverKeys rand fuel k n = some l →
      ∀ s ∈ l, s.data.Perm letters ∧ keyValidCheck s.data = true := by
  intro n
  induction n with
  | zero =>
    intro k l h
    simp only [driverKeys, Option.some.injEq] at h
    subst h
    simp
  | succ m ih =>
    intro k l h
    simp only [driverKeys] at h
    cases hg : generate_cryptogram_key rand k fuel with
    | none => rw [hg] at h; simp at h
    | some p =>
      obtain ⟨s, kn⟩ := p
      rw [hg] at h
      simp only [Option.map_eq_some'] at h
      obtain ⟨l', hl', hl⟩ := h
      subst hl
      intro t ht
      rcases List.mem_cons.mp ht with ht | ht
      · subst ht
        exact gen_key_spec hp hg
      · exact ih kn l' hl' t ht

end CryptogramKeys

/-! ## Lemmas about the games validator loop -/

namespace ValidateGames

theorem maskAnd_maskAnd (a b : Bool) (x : Option (Except Exc Bool)) :
    maskAnd a (maskAnd b x) = maskAnd (a && b) x := by
  match x with
  | none => rfl
  | some (.error e) => rfl
  | some (.ok c) => simp [maskAnd, Bool.and_assoc]

theorem maskAnd_false_ne_ok_true (x : Option (Except Exc Bool)) :
    maskAnd false x ≠ some (.ok true) := by
  match x with
  | none => simp [maskAnd]
  | some (.error e) => simp [maskAnd]
  | some (.ok c) => simp [maskAnd]

/-- The games loop accumulates its `valid` flag: a run that starts with flag
`valid` is the run that starts with `true`, AND-masked with `valid`. -/
theorem validateGamesLoop_factor (data : JValue) (endD : Date) :
    ∀ fuel cur sols tgts valid,
      validateGamesLoop data cur endD sols tgts valid fuel =
        maskAnd valid (validateGamesLoop data cur endD sols tgts true fuel) := by
  intro fuel
  induction fuel with
  | zero =>
    intro cur sols tgts valid
    by_cases h : dle cur endD = true <;>
      simp [validateGamesLoop, h, maskAnd]
  | succ f ih =>
    intro cur sols tgts valid
    by_cases h : dle cur endD = true
    · simp only [validateGamesLoop, if_pos h]
      split
      · simp [maskAnd]
      · split
        · simp [maskAnd]
        · rw [ih, maskAnd_maskAnd, Bool.and_false]
        · split
          · simp [maskAnd]
          · split
            · simp [maskAnd]
            · split_ifs with hn
              · rw [ih, maskAnd_maskAnd, Bool.and_false]
              · split
                · simp [maskAnd]
                · split
                  · simp [maskAnd]
                  · rename_i xl ok1 sols1 hlingo xs ok2 tgts2 hscry
                    rw [ih _ _ _ ((valid && ok1) && ok2),
                      ih _ _ _ ((true && ok1) && ok2), maskAnd_maskAnd]
                    simp only [Bool.true_and, Bool.and_assoc]
    · simp [validateGamesLoop, if_neg h, maskAnd]

end ValidateGames

namespace ValidateGames

theorem pySub_games (kvs : List (String × JValue)) :
    pySub (JValue.obj [("games", JValue.obj kvs)]) "games" = .ok (.obj kvs) := rfl

/-- If some date in `[cur, endD]` has no entry in the games object, no run of
the loop from `cur` can return `ok true`: the missing-date branch clears the
flag and the flag only accumulates. -/
theorem validateGamesLoop_missing_date {kvs : List (String × JValue)} {endD d : Date}
    (hd : validDate d) (hde : dle d endD = true)
    (hmiss : kvs.any (fun kv => kv.1 == dateToStr d) = false) :
    ∀ fuel cur sols tgts valid, validDate cur → dle cur d = true →
      validateGamesLoop (JValue.obj [("games", JValue.obj kvs)]) cur endD sols tgts
        valid fuel ≠ some (.ok true) := by
  intro fuel
  induction fuel with
  | zero =>
    intro cur sols tgts valid hcur hcd
    have hguard : dle cur endD = true := dle_trans hcd hde
    simp [validateGamesLoop, hguard]
  | succ f ih =>
    intro cur sols tgts valid hcur hcd
    have hguard : dle cur endD = true := dle_trans hcd hde
    simp only [validateGamesLoop, if_pos hguard, pySub_games]
    simp only [pyContains]
    cases hb : kvs.any (fun kv => kv.1 == dateToStr cur) with
    | false =>
      simp only []
      rw [validateGamesLoop_factor]
      exact maskAnd_false_ne_ok_true _
    | true =>
      have hne : ¬(cur = d) := by
        intro he
        rw [he] at hb
        rw [hb] at hmiss
        exact absurd hmiss (by simp)
      have hlt : dlt cur d = true := (dle_eq_or_lt hcd).resolve_left hne
      simp only []
      cases hgame : pySub (JValue.obj kvs) (dateToStr cur) with
      | error e => simp
      | ok game =>
        simp only []
        cases hlen : pyLen game with
        | error e => simp
        | ok n =>
          simp only []
          split_ifs with hn
          · rw [validateGamesLoop_factor]
            exact maskAnd_false_ne_ok_true _
          · cases hl : lingoSection game sols with
            | error e => simp
            | ok p1 =>
              obtain ⟨ok1, sols1⟩ := p1
              simp only []
              cases hs : scryptoSection game tgts with
              | error e => simp
              | ok p2 =>
                obtain ⟨ok2, tgts2⟩ := p2
                simp only []
                exact ih (nextDay cur) sols1 tgts2 _ (validDate_nextDay hcur)
                  (nextDay_le_of_lt hcur hd hlt)

end ValidateGames

namespace ValidateGames

/-- The games loop reads the games object only at the date keys it visits:
two documents agreeing on every date key in `[cur, endD]` drive the loop
identically.  In particular no date before the start date is consulted. -/
theorem validateGamesLoop_frame {kvs kvs' : List (String × JValue)} {endD : Date} :
    ∀ fuel cur sols tgts valid, validDate cur →
      (∀ dd, validDate dd → dle cur dd = true → dle dd endD = true →
        jLookupLast (dateToStr dd) kvs = jLookupLast (dateToStr dd) kvs' ∧
        kvs.any (fun kv => kv.1 == dateToStr dd) =
          kvs'.any (fun kv => kv.1 == dateToStr dd)) →
      validateGamesLoop (JValue.obj [("games", JValue.obj kvs)]) cur endD sols tgts
          valid fuel =
        validateGamesLoop (JValue.obj [("games", JValue.obj kvs')]) cur endD sols tgts
          valid fuel := by
  intro fuel
  induction fuel with
  | zero =>
    intro cur sols tgts valid hcur hag
    by_cases h : dle cur endD = true <;> simp [validateGamesLoop, h]
  | succ f ih =>
    intro cur sols tgts valid hcur hag
    by_cases h : dle cur endD = true
    · have hagNext : ∀ dd, validDate dd → dle (nextDay cur) dd = true →
          dle dd endD = true →
          jLookupLast (dateToStr dd) kvs = jLookupLast (dateToStr dd) kvs' ∧
          kvs.any (fun kv => kv.1 == dateToStr dd) =
            kvs'.any (fun kv => kv.1 == dateToStr dd) := by
        intro dd hv hge hle
        exact hag dd hv (dle_trans (dle_of_dlt (dlt_nextDay hcur)) hge) hle
      simp only [validateGamesLoop, if_pos h, pySub_games]
      simp only [pyContains]
      obtain ⟨hlk, hany⟩ := hag cur hcur (dle_refl cur) h
      rw [← hany]
      cases hb : kvs.any (fun kv => kv.1 == dateToStr cur) with
      | false =>
        simp only []
        exact ih (nextDay cur) sols tgts false (validDate_nextDay hcur) hagNext
      | true =>
        simp only [pySub]
        rw [← hlk]
        cases hk : jLookupLast (dateToStr cur) kvs with
        | none => rfl
        | some game =>
          simp only []
          cases hlen : pyLen game with
          | error e => rfl
          | ok n =>
            simp only []
            split_ifs with hn
            · exact ih (nextDay cur) sols tgts false (validDate_nextDay hcur) hagNext
            · cases hl : lingoSection game sols with
              | error e => rfl
              | ok p1 =>
                obtain ⟨ok1, sols1⟩ := p1
                simp only []
                cases hs : scryptoSection game tgts with
                | error e => rfl
                | ok p2 =>
                  obtain ⟨ok2, tgts2⟩ := p2
                  simp only []
                  exact ih (nextDay cur) sols1 tgts2 _ (validDate_nextDay hcur) hagNext
    · simp [validateGamesLoop, h]

end ValidateGames

namespace ValidatePrompts

/-- With enough fuel, the missing-dates loop completes and reports exactly
the dates of `[cur, endD]` (as normalized strings) absent from
`json_dates`. -/
theorem missingDates_spec {jd : List String} {endD : Date} (hve : validDate endD) :
    ∀ fuel cur, validDate cur → idxD endD + 1 ≤ idxD cur + fuel →
      ∃ ms, missingDates jd cur endD fuel = some ms ∧
        ∀ s, s ∈ ms ↔ ∃ dd, validDate dd ∧ dle cur dd = true ∧
          dle dd endD = true ∧ s = dateToStr dd ∧ jd.contains s = false := by
  intro fuel
  induction fuel with
  | zero =>
    intro cur hvc hfb
    have hguard : dle cur endD = false := by
      cases hg : dle cur endD with
      | false => rfl
      | true => exact absurd (idxD_mono hvc hve hg) (by omega)
    refine ⟨[], by simp [missingDates, hguard], ?_⟩
    intro s
    simp only [List.not_mem_nil, false_iff]
    rintro ⟨dd, hvd, hc, he, _, _⟩
    rw [dle_trans hc he] at hguard
    exact absurd hguard (by simp)
  | succ f ih =>
    intro cur hvc hfb
    cases hguard : dle cur endD with
    | false =>
      refine ⟨[], by simp [missingDates, hguard], ?_⟩
      intro s
      simp only [List.not_mem_nil, false_iff]
      rintro ⟨dd, hvd, hc, he, _, _⟩
      rw [dle_trans hc he] at hguard
      exact absurd hguard (by simp)
    | true =>
      have hstep := idxD_next hvc
      obtain ⟨ms', hms', hiff'⟩ :=
        ih (nextDay cur) (validDate_nextDay hvc) (by omega)
      refine ⟨(if jd.contains (dateToStr cur) then [] else [dateToStr cur]) ++ ms',
        ?_, ?_⟩
      · simp [missingDates, hguard, hms']
      · intro s
        constructor
        · intro hs
          rcases List.mem_append.mp hs with hs | hs
          · by_cases hcont : jd.contains (dateToStr cur) = true
            · rw [if_pos hcont] at hs
              exact absurd hs (by simp)
            · rw [if_neg hcont] at hs
              simp only [List.mem_singleton] at hs
              subst hs
              exact ⟨cur, hvc, dle_refl cur, hguard, rfl,
                Bool.eq_false_iff.mpr hcont⟩
          · obtain ⟨dd, hvd, hge, hle, hse, hcf⟩ := (hiff' s).mp hs
            exact ⟨dd, hvd, dle_trans (dle_of_dlt (dlt_nextDay hvc)) hge, hle,
              hse, hcf⟩
        · rintro ⟨dd, hvd, hge, hle, hse, hcf⟩
          rcases dle_eq_or_lt hge with he | hlt
          · subst he
            subst hse
            rw [List.mem_append]
            left
            have hnm : dateToStr cur ∉ jd := by simpa using hcf
            simp [hnm]
          · rw [List.mem_append]
            right
            exact (hiff' s).mpr
              ⟨dd, hvd, nextDay_le_of_lt hvc hvd hlt, hle, hse, hcf⟩

end ValidatePrompts

namespace ValidateGames

/-- Characterization of the cipher validator on strings: accepted iff
exactly 26 characters, `isupper`, and no character in its original alphabet
position.  Being a permutation of the alphabet is not required. -/
theorem cipher_ok_iff (s : String) :
    is_valid_scryptogram_cipher (.str s) = .ok (true, none) ↔
      (s.length = 26 ∧ pyIsUpperStr s = true ∧ ∀ i, i < 26 →
        s.data.getD i ' ' ≠ alphabet.data.getD i ' ') := by
  simp only [is_valid_scryptogram_cipher, pyLen, pyIsupperMethod, jStrOf]
  by_cases hlen : s.length = 26
  · rw [hlen]
    simp only [bne_self_eq_false, Bool.false_eq_true, if_false]
    by_cases hup : pyIsUpperStr s = true
    · rw [hup]
      simp only [Bool.not_true, Bool.false_eq_true, if_false]
      cases hfp : cipherFixedPt s with
      | none =>
        simp only [Except.ok.injEq, Prod.mk.injEq]
        constructor
        · intro _
          refine ⟨by trivial, by trivial, ?_⟩
          intro i hi
          have hnone := List.find?_eq_none.mp hfp i (List.mem_range.mpr hi)
          simpa using hnone
        · intro _
          trivial
      | some i =>
        simp only [Except.ok.injEq, Prod.mk.injEq]
        constructor
        · rintro ⟨h1, h2⟩
          exact absurd h2 (by simp)
        · rintro ⟨-, -, hall⟩
          have hpi := List.find?_some hfp
          have hmem := List.mem_of_find?_eq_some hfp
          rw [List.mem_range] at hmem
          exact absurd (beq_iff_eq.mp hpi) (hall i hmem)
    · have hup' : pyIsUpperStr s = false := Bool.eq_false_iff.mpr hup
      rw [hup']
      simp only [Bool.not_false, if_true]
      constructor
      · intro hcontra
        exact absurd hcontra (by simp)
      · rintro ⟨-, h2, -⟩
        exact absurd h2 (by simp)
  · have hbne : (s.length != 26) = true := by
      simpa [bne_iff_ne] using hlen
    rw [hbne]
    simp only [if_true]
    constructor
    · intro hcontra
      exact absurd hcontra (by simp)
    · rintro ⟨h1, -, -⟩
      exact absurd h1 hlen

end ValidateGames

/-- A string whose characters form a permutation of the generator's alphabet
satisfies Python's `isupper`. -/
theorem pyIsUpperStr_of_perm {s : String}
    (hp : s.data.Perm CryptogramKeys.letters) : pyIsUpperStr s = true := by
  have hlen : s.data.length = 26 := by
    rw [hp.length_eq, CryptogramKeys.letters_length]
  unfold pyIsUpperStr
  rw [Bool.and_eq_true]
  constructor
  · have hne : s.data ≠ [] := by
      intro h
      rw [h] at hlen
      simp at hlen
    obtain ⟨c, hc⟩ := List.exists_mem_of_ne_nil s.data hne
    rw [List.any_eq_true]
    exact ⟨c, hc, (CryptogramKeys.letters_char_facts c (hp.subset hc)).1⟩
  · rw [List.all_eq_true]
    intro c hc
    have hf := CryptogramKeys.letters_char_facts c (hp.subset hc)
    simp [hf.1, hf.2.1]

/-! ## Claim theorems -/

theorem rotLetters_perm : CryptogramKeys.rotLetters.Perm CryptogramKeys.letters := by
  decide

/-- C1: every string returned by the derangement generator has length 26,
consists only of uppercase letters A-Z with no repeated character, and for
every index i below 26 the character at position i differs from the i-th
letter of "ABCDEFGHIJKLMNOPQRSTUVWXYZ". -/
theorem generate_cryptogram_key_output_spec
    (rand : Nat → List Char) (k fuel k2 : Nat) (s : String)
    (hp : ∀ j, (rand j).Perm CryptogramKeys.letters)
    (h : CryptogramKeys.generate_cryptogram_key rand k fuel = some (s, k2)) :
    s.length = 26 ∧ (∀ c ∈ s.data, 'A' ≤ c ∧ c ≤ 'Z') ∧ s.data.Nodup ∧
      ∀ i, i < 26 → s.data.getD i ' ' ≠ ValidateGames.alphabet.data.getD i ' ' := by
  obtain ⟨hperm, hvalid⟩ := CryptogramKeys.gen_key_spec hp h
  refine ⟨?_, ?_, ?_, ?_⟩
  · have h1 : s.data.length = 26 := by
      rw [hperm.length_eq, CryptogramKeys.letters_length]
    exact h1
  · intro c hc
    exact (CryptogramKeys.letters_char_facts c (hperm.subset hc)).2.2
  · exact hperm.nodup_iff.mpr CryptogramKeys.letters_nodup
  · have hfix := CryptogramKeys.keyValidCheck_iff.mp hvalid
    rw [CryptogramKeys.letters_eq_alphabet] at hfix
    exact hfix

theorem generate_cryptogram_key_output_spec_witness :
    CryptogramKeys.generate_cryptogram_key (fun _ => CryptogramKeys.rotLetters) 0 1 =
      some (String.mk CryptogramKeys.rotLetters, 1) ∧
    ((String.mk CryptogramKeys.rotLetters).length = 26 ∧
      (∀ c ∈ (String.mk CryptogramKeys.rotLetters).data, 'A' ≤ c ∧ c ≤ 'Z') ∧
      (String.mk CryptogramKeys.rotLetters).data.Nodup ∧
      ∀ i, i < 26 → (String.mk CryptogramKeys.rotLetters).data.getD i ' ' ≠
        ValidateGames.alphabet.data.getD i ' ') :=
  ⟨rfl, generate_cryptogram_key_output_spec _ 0 1 1 _ (fun _ => rotLetters_perm) rfl⟩

/-- C2: whenever the shuffle stream eventually yields a fixed-point-free
shuffle, the rejection-sampling loop returns a value (no error outcome
exists), and a rejected trial only moves on to the next trial. -/
theorem generate_cryptogram_key_terminates :
    (∀ (rand : Nat → List Char) (k j fuel : Nat), k ≤ j → j < k + fuel →
      CryptogramKeys.keyValidCheck (rand j) = true →
      (CryptogramKeys.generate_cryptogram_key rand k fuel).isSome = true) ∧
    (∀ (rand : Nat → List Char) (k f : Nat),
      CryptogramKeys.keyValidCheck (rand k) = false →
      CryptogramKeys.generate_cryptogram_key rand k (f + 1) =
        CryptogramKeys.generate_cryptogram_key rand (k + 1) f) := by
  constructor
  · intro rand k j fuel
    induction fuel generalizing k with
    | zero => intro h1 h2 h3; omega
    | succ f ih =>
      intro h1 h2 h3
      simp only [CryptogramKeys.generate_cryptogram_key]
      by_cases hv : CryptogramKeys.keyValidCheck (rand k) = true
      · rw [if_pos hv]; rfl
      · rw [if_neg hv]
        have hkj : k ≠ j := fun he => hv (he ▸ h3)
        exact ih (k + 1) (by omega) (by omega) h3
  · intro rand k f hv
    simp [CryptogramKeys.generate_cryptogram_key, hv]

theorem generate_cryptogram_key_terminates_witness :
    (CryptogramKeys.generate_cryptogram_key
      (fun j => if j = 0 then CryptogramKeys.letters else CryptogramKeys.rotLetters)
      0 2).isSome = true ∧
    CryptogramKeys.generate_cryptogram_key
      (fun j => if j = 0 then CryptogramKeys.letters else CryptogramKeys.rotLetters)
      0 2 =
      CryptogramKeys.generate_cryptogram_key
        (fun j => if j = 0 then CryptogramKeys.letters else CryptogramKeys.rotLetters)
        1 1 :=
  ⟨generate_cryptogram_key_terminates.1 _ 0 1 2 (by omega) (by omega) rfl,
   generate_cryptogram_key_terminates.2 _ 0 1 rfl⟩

/-- C6: a generator call is a pure function of the shuffle stream from its
starting position on; nothing else observable by a later call is mutated, so
two calls interact only through the advancing stream position. -/
theorem generate_cryptogram_key_frame
    (rand rand2 : Nat → List Char) (k fuel : Nat)
    (h : ∀ j, k ≤ j → rand j = rand2 j) :
    CryptogramKeys.generate_cryptogram_key rand k fuel =
      CryptogramKeys.generate_cryptogram_key rand2 k fuel := by
  induction fuel generalizing k with
  | zero => rfl
  | succ f ih =>
    simp only [CryptogramKeys.generate_cryptogram_key]
    rw [h k (le_refl k)]
    by_cases hv : CryptogramKeys.keyValidCheck (rand2 k) = true
    · rw [if_pos hv, if_pos hv]
    · rw [if_neg hv, if_neg hv]
      exact ih (k + 1) (fun j hj => h j (by omega))

theorem generate_cryptogram_key_frame_witness :
    CryptogramKeys.generate_cryptogram_key
      (fun j => if j = 0 then CryptogramKeys.letters else CryptogramKeys.rotLetters)
      1 1 =
    CryptogramKeys.generate_cryptogram_key (fun _ => CryptogramKeys.rotLetters) 1 1 :=
  generate_cryptogram_key_frame _ _ 1 1
    (fun j hj => by rw [if_neg (by omega)])

/-- C5: a successful driver run emits exactly 20 lines, each line the result
of the corresponding generator call in call order and each a 26-character
derangement string; nothing deduplicates repeated keys, so a run with all 20
lines equal exists. -/
theorem module_driver_twenty_lines :
    (∀ (rand : Nat → List Char) (fuel : Nat) (l : List String),
      (∀ j, (rand j).Perm CryptogramKeys.letters) →
      CryptogramKeys.moduleDriver rand fuel = some l →
      l.length = 20 ∧
      (∀ s ∈ l, s.length = 26 ∧ ∀ i, i < 26 →
        s.data.getD i ' ' ≠ ValidateGames.alphabet.data.getD i ' ') ∧
      ∃ g : Nat → Nat, g 0 = 0 ∧ ∀ i, i < 20 →
        CryptogramKeys.generate_cryptogram_key rand (g i) fuel =
          some (l.getD i "", g (i + 1))) ∧
    (∃ (rand : Nat → List Char) (fuel : Nat) (l : List String),
      CryptogramKeys.moduleDriver rand fuel = some l ∧ l.length = 20 ∧
        ¬ l.Nodup) := by
  constructor
  · intro rand fuel l hp h
    obtain ⟨hlen, g, hg0, hgi⟩ := CryptogramKeys.driverKeys_spec 20 0 l h
    refine ⟨hlen, ?_, g, hg0, hgi⟩
    intro s hs
    obtain ⟨hperm, hvalid⟩ := CryptogramKeys.driverKeys_mem hp 20 0 l h s hs
    constructor
    · have h1 : s.data.length = 26 := by
        rw [hperm.length_eq, CryptogramKeys.letters_length]
      exact h1
    · have hfix := CryptogramKeys.keyValidCheck_iff.mp hvalid
      rw [CryptogramKeys.letters_eq_alphabet] at hfix
      exact hfix
  · refine ⟨fun _ => CryptogramKeys.rotLetters, 1,
      List.replicate 20 (String.mk CryptogramKeys.rotLetters), rfl, by simp, ?_⟩
    rw [List.nodup_replicate]
    omega

theorem module_driver_twenty_lines_witness :
    CryptogramKeys.moduleDriver (fun _ => CryptogramKeys.rotLetters) 1 =
      some (List.replicate 20 (String.mk CryptogramKeys.rotLetters)) ∧
    (List.replicate 20 (String.mk CryptogramKeys.rotLetters)).length = 20 :=
  ⟨rfl, (module_driver_twenty_lines.1 _ 1 _ (fun _ => rotLetters_perm) rfl).1⟩

/-- C8: every possible generator output is accepted by the games validator's
cipher check with `(True, None)`. -/
theorem generator_output_accepted_by_cipher_validator
    (rand : Nat → List Char) (k fuel k2 : Nat) (s : String)
    (hp : ∀ j, (rand j).Perm CryptogramKeys.letters)
    (h : CryptogramKeys.generate_cryptogram_key rand k fuel = some (s, k2)) :
    ValidateGames.is_valid_scryptogram_cipher (.str s) = .ok (true, none) := by
  obtain ⟨hperm, hvalid⟩ := CryptogramKeys.gen_key_spec hp h
  rw [ValidateGames.cipher_ok_iff]
  refine ⟨?_, pyIsUpperStr_of_perm hperm, ?_⟩
  · have h1 : s.data.length = 26 := by
      rw [hperm.length_eq, CryptogramKeys.letters_length]
    exact h1
  · have hfix := CryptogramKeys.keyValidCheck_iff.mp hvalid
    rw [CryptogramKeys.letters_eq_alphabet] at hfix
    exact hfix

theorem generator_output_accepted_by_cipher_validator_witness :
    ValidateGames.is_valid_scryptogram_cipher
      (.str (String.mk CryptogramKeys.rotLetters)) = .ok (true, none) :=
  generator_output_accepted_by_cipher_validator _ 0 1 1 _
    (fun _ => rotLetters_perm) rfl

/-- C9: the cipher validator accepts exactly the 26-character strings that
satisfy Python's `isupper` and have no character at its own alphabet
position; in particular "BC" repeated 13 times is accepted although it is
not a rearrangement of the alphabet. -/
theorem cipher_validator_characterization :
    (∀ s : String,
      ValidateGames.is_valid_scryptogram_cipher (.str s) = .ok (true, none) ↔
        (s.length = 26 ∧ pyIsUpperStr s = true ∧ ∀ i, i < 26 →
          s.data.getD i ' ' ≠ ValidateGames.alphabet.data.getD i ' ')) ∧
    ValidateGames.is_valid_scryptogram_cipher
      (.str "BCBCBCBCBCBCBCBCBCBCBCBCBC") = .ok (true, none) ∧
    ¬ ("BCBCBCBCBCBCBCBCBCBCBCBCBC".data.Perm ValidateGames.alphabet.data) := by
  refine ⟨ValidateGames.cipher_ok_iff, rfl, by decide⟩

theorem cipher_validator_characterization_witness :
    ValidateGames.is_valid_scryptogram_cipher
      (.str "BCBCBCBCBCBCBCBCBCBCBCBCBC") = .ok (true, none) :=
  (cipher_validator_characterization.1 "BCBCBCBCBCBCBCBCBCBCBCBCBC").mpr (by decide)

/-- C3 counterexample: exceptions do escape `validate_json`: a game entry
lacking a `type` key raises `KeyError`, a non-object game element raises
`TypeError`, and a malformed end date raises `ValueError` in both
validators. -/
theorem validate_json_raises_counterexample :
    ValidateGames.validate_json (.parsed gdocNoType) "2025-03-05" 1 =
      some (.error (.keyError "type")) ∧
    ValidateGames.validate_json (.parsed gdocNums) "2025-03-05" 1 =
      some (.error .typeError) ∧
    ValidateGames.validate_json .missing "03/05/2025" 1 =
      some (.error .valueError) ∧
    ValidatePrompts.validate_json .missing "03/05/2025" 1 =
      some (.error .valueError) :=
  ⟨rfl, rfl, rfl, rfl⟩

/-- C3 amended: the validators return a boolean on well-shaped inputs, but
exceptions can propagate: any end date `strptime` rejects raises
`ValueError` before the file is read (both validators), and the games
validator raises `KeyError` on a game entry lacking a `type` key and
`TypeError` on a non-object game element. -/
theorem validate_json_exception_cases :
    (∀ (fs : FileRead) (e : String) (fuel : Nat), parseDate e = none →
      ValidateGames.validate_json fs e fuel = some (.error .valueError)) ∧
    (∀ (fs : FileRead) (e : String) (fuel : Nat), parseDate e = none →
      ValidatePrompts.validate_json fs e fuel = some (.error .valueError)) ∧
    ValidateGames.validate_json (.parsed gdocNoType) "2025-03-05" 1 =
      some (.error (.keyError "type")) ∧
    ValidateGames.validate_json (.parsed gdocNums) "2025-03-05" 1 =
      some (.error .typeError) := by
  refine ⟨?_, ?_, rfl, rfl⟩
  · intro fs e fuel h
    simp [ValidateGames.validate_json, h]
  · intro fs e fuel h
    simp [ValidatePrompts.validate_json, h]

theorem validate_json_exception_cases_witness :
    parseDate "bad-date" = none ∧
    ValidateGames.validate_json .missing "bad-date" 1 = some (.error .valueError) ∧
    ValidatePrompts.validate_json .invalid "bad-date" 1 = some (.error .valueError) :=
  ⟨rfl, validate_json_exception_cases.1 .missing "bad-date" 1 rfl,
   validate_json_exception_cases.2.1 .invalid "bad-date" 1 rfl⟩

/-- C4 counterexample: the prompts validator returns true although its
YouTube-link check failed for a date inside the validated range — per-item
check results are discarded. -/
theorem validate_prompts_ignores_check_failures_counterexample :
    ValidatePrompts.check_youtube_link pBad = .ok false ∧
    ValidatePrompts.validate_json (.parsed pdocBad) "2025-03-03" 2 =
      some (.ok true) :=
  ⟨rfl, rfl⟩

/-- C4 amended: the games validator accumulates its all-valid flag (a loop
run is the run started from `true`, AND-masked with the incoming flag, so
any failed check forces an overall false); missing or unparsable input files
short-circuit both validators to false; the prompts validator discards its
per-item check results — there is an input whose check fails inside the
range while `validate_json` still returns true. -/
theorem validators_flag_accumulation_amended :
    (∀ (data : JValue) (endD : Date) (fuel : Nat) (cur : Date)
        (sols tgts : List String) (valid : Bool),
      ValidateGames.validateGamesLoop data cur endD sols tgts valid fuel =
        maskAnd valid
          (ValidateGames.validateGamesLoop data cur endD sols tgts true fuel)) ∧
    (∀ (e : String) (d : Date) (fuel : Nat), parseDate e = some d →
      ValidateGames.validate_json .missing e fuel = some (.ok false) ∧
      ValidateGames.validate_json .invalid e fuel = some (.ok false) ∧
      ValidatePrompts.validate_json .missing e fuel = some (.ok false) ∧
      ValidatePrompts.validate_json .invalid e fuel = some (.ok false)) ∧
    (∃ p : JValue, ValidatePrompts.check_youtube_link p = .ok false ∧
      ValidatePrompts.validate_json
        (.parsed (JValue.obj [("prompts", JValue.arr [p])])) "2025-03-03" 2 =
        some (.ok true)) := by
  refine ⟨?_, ?_, ⟨pBad, rfl, rfl⟩⟩
  · intro data endD fuel cur sols tgts valid
    exact ValidateGames.validateGamesLoop_factor data endD fuel cur sols tgts valid
  · intro e d fuel h
    refine ⟨?_, ?_, ?_, ?_⟩ <;>
      simp [ValidateGames.validate_json, ValidatePrompts.validate_json, h]

theorem validators_flag_accumulation_amended_witness :
    parseDate "2025-03-05" = some ⟨2025, 3, 5⟩ ∧
    ValidateGames.validate_json .missing "2025-03-05" 1 = some (.ok false) :=
  ⟨rfl, (validators_flag_accumulation_amended.2.1 "2025-03-05" ⟨2025, 3, 5⟩ 1 rfl).1⟩

/-- C7 counterexample: a single command-line argument is rejected by the
argument parser of both scripts — the CLI requires two positionals, `file`
and `endDate`. -/
theorem main_single_arg_counterexample :
    ValidateGames.main .missing ["2025-04-01"] 1 = .usage ∧
    ValidatePrompts.main .missing ["2025-04-01"] 1 = .usage :=
  ⟨rfl, rfl⟩

/-- C7 amended: each CLI requires two positional arguments; the `file`
argument is ignored (the run depends only on the end date and the
working directory's `prompts.json`), `validate_json` returns its boolean to
`main`, and an argument list without both positionals aborts with a usage
error. -/
theorem main_two_args_file_ignored :
    ∀ (fs : FileRead) (f1 f2 e : String) (fuel : Nat),
      ValidateGames.main fs [f1, e] fuel =
        .ran (ValidateGames.validate_json fs e fuel) ∧
      ValidateGames.main fs [f1, e] fuel = ValidateGames.main fs [f2, e] fuel ∧
      ValidatePrompts.main fs [f1, e] fuel =
        .ran (ValidatePrompts.validate_json fs e fuel) ∧
      ValidatePrompts.main fs [f1, e] fuel = ValidatePrompts.main fs [f2, e] fuel ∧
      ValidateGames.main fs [e] fuel = .usage ∧
      ValidatePrompts.main fs [e] fuel = .usage := by
  intro fs f1 f2 e fuel
  exact ⟨rfl, rfl, rfl, rfl, rfl, rfl⟩

theorem main_two_args_file_ignored_witness :
    ValidateGames.main .missing ["prompts.json", "2025-03-05"] 1 =
      .ran (ValidateGames.validate_json .missing "2025-03-05" 1) :=
  (main_two_args_file_ignored .missing "prompts.json" "other.json"
    "2025-03-05" 1).1

/-- C10: the games validator's range is hard-coded to start at 2025-03-05
(the prompts validator's at 2025-03-03): a missing game entry for any date
from 2025-03-05 through the end date forces a non-true result; entries at
dates outside that range are never consulted; and the prompts missing-date
scan reports exactly the absent dates of [2025-03-03, end date]. -/
theorem validators_date_range_spec :
    parseDate "2025-03-05" = some ValidateGames.gamesStartDate ∧
    parseDate "2025-03-03" = some ValidatePrompts.promptsStartDate ∧
    (∀ (e : String) (endD : Date) (kvs : List (String × JValue)) (d : Date)
        (fuel : Nat),
      parseDate e = some endD → validDate d →
      dle ValidateGames.gamesStartDate d = true → dle d endD = true →
      kvs.any (fun kv => kv.1 == dateToStr d) = false →
      ValidateGames.validate_json
        (.parsed (JValue.obj [("games", JValue.obj kvs)])) e fuel ≠
        some (.ok true)) ∧
    (∀ (e : String) (endD : Date) (kvs kvs' : List (String × JValue))
        (fuel : Nat),
      parseDate e = some endD →
      (∀ dd, validDate dd → dle ValidateGames.gamesStartDate dd = true →
        dle dd endD = true →
        jLookupLast (dateToStr dd) kvs = jLookupLast (dateToStr dd) kvs' ∧
        kvs.any (fun kv => kv.1 == dateToStr dd) =
          kvs'.any (fun kv => kv.1 == dateToStr dd)) →
      ValidateGames.validate_json
          (.parsed (JValue.obj [("games", JValue.obj kvs)])) e fuel =
        ValidateGames.validate_json
          (.parsed (JValue.obj [("games", JValue.obj kvs')])) e fuel) ∧
    (∀ (jd : List String) (endD : Date) (fuel : Nat), validDate endD →
      idxD endD + 1 ≤ idxD ValidatePrompts.promptsStartDate + fuel →
      ∃ ms, ValidatePrompts.missingDates jd ValidatePrompts.promptsStartDate
          endD fuel = some ms ∧
        ∀ s, s ∈ ms ↔ ∃ dd, validDate dd ∧
          dle ValidatePrompts.promptsStartDate dd = true ∧
          dle dd endD = true ∧ s = dateToStr dd ∧ jd.contains s = false) := by
  refine ⟨rfl, rfl, ?_, ?_, ?_⟩
  · intro e endD kvs d fuel hparse hd hstart hde hmiss
    simp only [ValidateGames.validate_json, hparse]
    exact ValidateGames.validateGamesLoop_missing_date hd hde hmiss fuel
      ValidateGames.gamesStartDate [] [] true (by decide) hstart
  · intro e endD kvs kvs' fuel hparse hag
    simp only [ValidateGames.validate_json, hparse]
    exact ValidateGames.validateGamesLoop_frame fuel
      ValidateGames.gamesStartDate [] [] true (by decide) hag
  · intro jd endD fuel hv hf
    exact ValidatePrompts.missingDates_spec hv fuel
      ValidatePrompts.promptsStartDate (by decide) hf

theorem validators_date_range_spec_witness :
    parseDate "2025-03-05" = some ValidateGames.gamesStartDate ∧
    ValidateGames.validate_json
      (.parsed (JValue.obj [("games", JValue.obj [])])) "2025-03-05" 1 ≠
      some (.ok true) :=
  ⟨rfl, validators_date_range_spec.2.2.1 "2025-03-05"
    ValidateGames.gamesStartDate [] ValidateGames.gamesStartDate 1 rfl
    (by decide) (by decide) (by decide) rfl⟩
